import Mathlib

/-!
Shallow embedding of `src/app.py` (a small Flask service enumerating
download options for a video and resolving a user's choice label back to a
stream, or transcoding audio to mp3).

Modelling conventions:
* Python strings are Lean `String`s; Python `str.split`, `in`, `lower`,
  `strip` are re-implemented below over `List Char`, matching CPython
  semantics for the operations the code performs.
* Sizes are carried exactly: a file size is a byte count (`Nat`), and a
  "megabyte value rounded to two decimals" is carried as an exact count of
  centi-megabytes (`Nat`).  Python's `round(x, 2)` (round-half-to-even)
  becomes `rheDiv` applied to `100 * x` expressed as an exact integer
  quotient.
* The external collaborators (pytubefix's `YouTube`, stream download, and
  moviepy transcoding) are an explicit environment `Env` of fallible
  functions; a raised exception is an `Except.error` carrying `str(e)`.
* Flask responses are a `Resp`: a JSON error body or a file attachment,
  plus the numeric HTTP status.
-/

namespace Ytdl

/-- Python `str.lower` (the code only ever lowercases ASCII-relevant data). -/
def pyLower (s : String) : String := ⟨s.data.map Char.toLower⟩

/-- Substring test over char lists: does `needle` occur contiguously in the list? -/
def hasSub (needle : List Char) : List Char → Bool
  | [] => needle.isEmpty
  | c :: rest => needle.isPrefixOf (c :: rest) || hasSub needle rest

/-- Python `needle in hay` for strings. -/
def pyIn (needle hay : String) : Bool := hasSub needle.data hay.data

/-- The literal delimiter `" | "` used by both label producer and parser. -/
def DELIM : List Char := [' ', '|', ' ']

/-- Fuel-driven worker for Python `s.split(" | ")`: scan left to right, and at
the first position where `" | "` is a prefix of the remainder emit the
accumulated token and continue after the separator. -/
def splitBarAux : Nat → List Char → List Char → List (List Char)
  | 0, s, acc => [acc.reverse ++ s]
  | _ + 1, [], acc => [acc.reverse]
  | fuel + 1, c :: rest, acc =>
    if DELIM.isPrefixOf (c :: rest) then
      acc.reverse :: splitBarAux fuel (rest.drop 2) []
    else
      splitBarAux fuel rest (c :: acc)

/-- Python `choice.split(" | ")`. -/
def pySplitBar (s : String) : List String :=
  (splitBarAux s.data.length s.data []).map List.asString

/-- Fuel-driven worker for Python `s.split("/")`. -/
def splitSlashAux : Nat → List Char → List Char → List (List Char)
  | 0, s, acc => [acc.reverse ++ s]
  | _ + 1, [], acc => [acc.reverse]
  | fuel + 1, c :: rest, acc =>
    if c = '/' then acc.reverse :: splitSlashAux fuel rest []
    else splitSlashAux fuel rest (c :: acc)

/-- Python `s.split("/")`. -/
def pySplitSlash (s : String) : List String :=
  (splitSlashAux s.data.length s.data []).map List.asString

/-- Python `s.mime_type.split("/")[-1]` (split always yields a nonempty list,
so `[-1]` is its last element). -/
def lastSlashComp (s : String) : String := (pySplitSlash s).getLastD ""

/-- Round-half-to-even integer division: the value of `a / b` rounded to the
nearest integer, ties going to the even neighbour.  This is Python's
`round` applied to the exact rational `a / b`. -/
def rheDiv (a b : Nat) : Nat :=
  let q := a / b
  let r := a % b
  if 2 * r < b then q
  else if b < 2 * r then q + 1
  else if q % 2 = 0 then q else q + 1

/-- Render a centi-value the way a Python f-string renders the float
`round(x, 2)`: integer part, a dot, then the fractional digits with a
trailing zero stripped (but at least one digit kept). -/
def fmtCents (c : Nat) : String :=
  let ip := c / 100
  let f := c % 100
  if f % 10 = 0 then toString ip ++ "." ++ toString (f / 10)
  else if f < 10 then toString ip ++ ".0" ++ toString f
  else toString ip ++ "." ++ toString f

/-- Embeds `estimate_compressed_size` (app.py lines 19-23): Python's
`if not original_size_mb` treats both `None` and `0.0` as "unknown"; the
size argument is carried in centi-megabytes. The default `bitrate_factor`
is 0.6, so `round(size * 0.6, 2)` in centi-MB is `rheDiv (c * 3) 5`
(since `c * 0.6 = c * 3 / 5`). -/
def estimate_compressed_size (original_size_cmb : Option Nat) : String :=
  match original_size_cmb with
  | none => "?"
  | some c => if c = 0 then "?" else fmtCents (rheDiv (c * 3) 5) ++ " MB (est.)"

/-- A pytubefix stream descriptor, restricted to the attributes app.py reads. -/
structure YTStream where
  resolution : Option String
  is_progressive : Bool
  includes_video_track : Bool
  includes_audio_track : Bool
  mime_type : String
  filesize : Option Nat
deriving DecidableEq

/-- One entry of the choices list returned by `get_download_options`;
synthetic mp3 entries carry only a label and a type. -/
structure Choice where
  label : String
  resolution : Option String
  type : String
  extension : Option String
deriving DecidableEq

/-- Embeds `res = s.resolution or "Audio only"` (Python `or`: `None` and the
empty string are falsy). -/
def resolutionLabel (s : YTStream) : String :=
  match s.resolution with
  | some r => if r = "" then "Audio only" else r
  | none => "Audio only"

/-- Embeds the type string of app.py line 48. -/
def typeLabel (s : YTStream) : String :=
  if s.is_progressive then "video+audio"
  else if s.includes_video_track then "video only"
  else "audio only"

/-- Embeds `size_mb = round(s.filesize / 1048576, 2) if s.filesize else None`,
in centi-megabytes (`s.filesize` of `None` or `0` is falsy). -/
def sizeCmb (s : YTStream) : Option Nat :=
  match s.filesize with
  | some n => if n = 0 then none else some (rheDiv (n * 100) 1048576)
  | none => none

/-- Embeds the per-stream dict built in app.py lines 46-57. -/
def mkChoice (s : YTStream) : Choice :=
  let res := resolutionLabel s
  let type := typeLabel s
  let ext := lastSlashComp s.mime_type
  let est := estimate_compressed_size (sizeCmb s)
  { label := res ++ " | " ++ type ++ " | " ++ ext ++ " | " ++ est
    resolution := some res
    type := type
    extension := some ext }

/-- First synthetic entry appended at app.py line 59. -/
def synHigh : Choice :=
  { label := "Convert to MP3 – High Quality (320kbps)", resolution := none
    type := "mp3_high", extension := none }

/-- Second synthetic entry appended at app.py line 60. -/
def synMedium : Choice :=
  { label := "Convert to MP3 – Medium Quality (192kbps)", resolution := none
    type := "mp3_medium", extension := none }

/-- Third synthetic entry appended at app.py line 61. -/
def synLow : Choice :=
  { label := "Convert to MP3 – Low Quality (128kbps)", resolution := none
    type := "mp3_low", extension := none }

/-- The manifest data the external `YouTube` collaborator yields: a title and
the stream list already ordered by `order_by('resolution').desc()` (the
ordering is the collaborator's, not this code's). -/
structure UpstreamVideo where
  title : String
  streams : List YTStream
deriving DecidableEq

/-- External collaborators: manifest resolution (may raise), stream download
to an optional fixed filename yielding the saved path (may raise), and
audio transcoding given temp path, output path and bitrate (may raise). -/
structure Env where
  resolve : String → Except String UpstreamVideo
  download : YTStream → Option String → Except String String
  transcode : String → String → String → Except String Unit

def BASE_YT_URL : String := "https://www.youtube.com/watch?v="

/-- Embeds `get_full_url` (app.py lines 16-17). -/
def get_full_url (video_id : String) : String := BASE_YT_URL ++ video_id

/-- The choices list of `get_download_options`: one entry per stream, then
the three fixed synthetic mp3 entries (app.py lines 44-61). -/
def buildChoices (streams : List YTStream) : List Choice :=
  streams.map mkChoice ++ [synHigh, synMedium, synLow]

/-- Embeds `get_download_options` (app.py lines 40-63): resolve the manifest
(any raise propagates to the caller) and return the choices plus title. -/
def get_download_options (env : Env) (video_id : String) :
    Except String (List Choice × String) :=
  match env.resolve (get_full_url video_id) with
  | .error e => .error e
  | .ok yt => .ok (buildChoices yt.streams, yt.title)

/-- Python whitespace for `str.strip`. -/
def isPyWS (c : Char) : Bool :=
  c = ' ' || c = '\t' || c = '\n' || c = '\r' || c = '\x0B' || c = '\x0C'

/-- The character filter of app.py line 30: `c.isalnum() or c in (' ', '-', '_')`. -/
def keepSafeChar (c : Char) : Bool :=
  c.isAlphanum || c = ' ' || c = '-' || c = '_'

/-- Python `str.strip()`: drop leading and trailing whitespace. -/
def pyStrip (s : String) : String :=
  ⟨((s.data.dropWhile isPyWS).reverse.dropWhile isPyWS).reverse⟩

/-- Embeds the sanitization of app.py line 30. -/
def sanitizeTitle (title : String) : String :=
  pyStrip ⟨title.data.filter keepSafeChar⟩

/-- The bitrate dict of app.py line 34; any other key raises `KeyError`. -/
def bitrateOf : String → Option String
  | "High" => some "320k"
  | "Medium" => some "192k"
  | "Low" => some "128k"
  | _ => none

/-- Embeds `convert_to_mp3` (app.py lines 25-38): build the sanitized output
path, look up the bitrate, transcode, and return the output path. -/
def convert_to_mp3 (env : Env) (temp_path title quality : String) :
    Except String String :=
  let safe_title := sanitizeTitle title
  let mp3_path := "downloads/" ++ safe_title ++ " (" ++ quality ++ ").mp3"
  match bitrateOf quality with
  | none => .error ("KeyError: " ++ quality)
  | some br =>
    match env.transcode temp_path mp3_path br with
    | .error e => .error e
    | .ok _ => .ok mp3_path

/-- Predicate of the exact lookup `yt.streams.filter(res=res, mime_type="video/"+ext)`. -/
def exactMatch (res ext : String) (s : YTStream) : Bool :=
  s.resolution == some res && s.mime_type == ("video/" ++ ext)

/-- Predicate of the fallback lookup `yt.streams.filter(res=res)`. -/
def resMatch (res : String) (s : YTStream) : Bool :=
  s.resolution == some res

/-- Embeds app.py lines 114-117: exact match first, then resolution-only
fallback; `.first()` of an empty query is `None`. -/
def selectStream (streams : List YTStream) (res ext : String) : Option YTStream :=
  match (streams.filter (exactMatch res ext)).head? with
  | some s => some s
  | none => (streams.filter (resMatch res)).head?

/-- Outcome of the non-mp3 branch of `api_download` before downloading. -/
inductive StreamPathResult where
  | indexError
  | notAvailable
  | found (s : YTStream)
deriving DecidableEq

/-- Embeds app.py lines 112-119: `choice.split(" | ")[0]` never fails (a
split is nonempty), `choice.split(" | ")[2]` raises `IndexError` when the
split has fewer than three segments; otherwise select a stream. -/
def streamPath (streams : List YTStream) (choice : String) : StreamPathResult :=
  match (pySplitBar choice)[2]? with
  | none => .indexError
  | some ext =>
    match selectStream streams ((pySplitBar choice).headD "") ext with
    | some s => .found s
    | none => .notAvailable

/-- Response body: a JSON error object or a file attachment. -/
inductive Body where
  | errJson (msg : String)
  | fileAtt (path : String)
deriving DecidableEq

/-- An HTTP response: body plus status code. -/
structure Resp where
  body : Body
  status : Nat
deriving DecidableEq

/-- Python truthiness of `request.args.get(..)`: absent or empty is falsy. -/
def presentParam : Option String → Bool
  | none => false
  | some v => !(v == "")

/-- Embeds `"mp3" in choice.lower()` (app.py line 95). -/
def isAudioChoice (choice : String) : Bool := pyIn "mp3" (pyLower choice)

/-- Embeds the quality dispatch of app.py lines 102-107. -/
def chooseQuality (choice : String) : String :=
  if pyIn "high" (pyLower choice) then "High"
  else if pyIn "medium" (pyLower choice) then "Medium"
  else "Low"

/-- Embeds `yt.streams.filter(only_audio=True)`: streams with an audio track
and no video track. -/
def audioStreams (streams : List YTStream) : List YTStream :=
  streams.filter (fun s => s.includes_audio_track && !s.includes_video_track)

/-- Embeds the `/download` handler `api_download` (app.py lines 79-126).
Raises from collaborators land in the final `except` as a 500 with the raw
message; the two selection misses return 400 directly. -/
def api_download (env : Env) (video_id choice : Option String) : Resp :=
  if !(presentParam video_id && presentParam choice) then
    ⟨.errJson "video_id and choice query parameters are required", 400⟩
  else
    let vid := video_id.getD ""
    let ch := choice.getD ""
    match env.resolve (get_full_url vid) with
    | .error e => ⟨.errJson e, 500⟩
    | .ok yt =>
      if isAudioChoice ch then
        match (audioStreams yt.streams).head? with
        | none => ⟨.errJson "No audio stream available", 400⟩
        | some stream =>
          match env.download stream (some "temp.mp4") with
          | .error e => ⟨.errJson e, 500⟩
          | .ok temp_path =>
            match convert_to_mp3 env temp_path yt.title (chooseQuality ch) with
            | .error e => ⟨.errJson e, 500⟩
            | .ok mp3_path => ⟨.fileAtt mp3_path, 200⟩
      else
        match streamPath yt.streams ch with
        | .indexError => ⟨.errJson "list index out of range", 500⟩
        | .notAvailable => ⟨.errJson "Selected quality not available", 400⟩
        | .found stream =>
          match env.download stream none with
          | .error e => ⟨.errJson e, 500⟩
          | .ok p => ⟨.fileAtt p, 200⟩

/-- Characterization of `List.isPrefixOf` on char lists. -/
theorem isPrefixOf_eq_true_iff (n : List Char) :
    ∀ h : List Char, n.isPrefixOf h = true ↔ ∃ t, h = n ++ t := by
  induction n with
  | nil => intro h; simp [List.isPrefixOf]
  | cons a n ih =>
    intro h
    cases h with
    | nil => simp [List.isPrefixOf]
    | cons b h =>
      simp only [List.isPrefixOf, Bool.and_eq_true, beq_iff_eq, ih, List.cons_append]
      constructor
      · rintro ⟨rfl, t, rfl⟩
        exact ⟨t, rfl⟩
      · rintro ⟨t, ht⟩
        obtain ⟨rfl, rfl⟩ : a = b ∧ h = n ++ t :=
          ⟨(List.cons.injEq .. ▸ ht).1.symm, (List.cons.injEq .. ▸ ht).2⟩
        exact ⟨rfl, t, rfl⟩

/-- Substring occurrence characterization for `hasSub`. -/
theorem hasSub_iff (n : List Char) :
    ∀ h : List Char, hasSub n h = true ↔ ∃ p s, h = p ++ n ++ s := by
  intro h
  induction h with
  | nil =>
    simp only [hasSub, List.isEmpty_iff]
    constructor
    · rintro rfl; exact ⟨[], [], rfl⟩
    · rintro ⟨p, s, hps⟩
      rcases List.append_eq_nil.mp (List.append_eq_nil.mp hps.symm).1 with ⟨-, h2⟩
      exact h2
  | cons c rest ih =>
    simp only [hasSub, Bool.or_eq_true, isPrefixOf_eq_true_iff, ih]
    constructor
    · rintro (⟨t, ht⟩ | ⟨p, s, hps⟩)
      · exact ⟨[], t, by simpa using ht⟩
      · exact ⟨c :: p, s, by simp [hps]⟩
    · rintro ⟨p, s, hps⟩
      cases p with
      | nil =>
        exact Or.inl ⟨s, by simpa using hps⟩
      | cons a p' =>
        right
        have h1 : rest = p' ++ n ++ s := (List.cons.injEq .. ▸ hps).2
        exact ⟨p', s, h1⟩

/-- Fuel does not matter for `splitBarAux` as long as it covers the input. -/
theorem splitBarAux_fuel (fuel₁ : Nat) :
    ∀ (fuel₂ : Nat) (s acc : List Char), s.length ≤ fuel₁ → s.length ≤ fuel₂ →
      splitBarAux fuel₁ s acc = splitBarAux fuel₂ s acc := by
  induction fuel₁ with
  | zero =>
    intro fuel₂ s acc h₁ _
    have hs : s = [] := List.eq_nil_of_length_eq_zero (Nat.le_zero.mp h₁)
    subst hs
    cases fuel₂ <;> simp [splitBarAux]
  | succ f ih =>
    intro fuel₂ s acc h₁ h₂
    cases s with
    | nil => cases fuel₂ <;> simp [splitBarAux]
    | cons c rest =>
      cases fuel₂ with
      | zero => simp at h₂
      | succ f₂ =>
        simp only [splitBarAux]
        by_cases hp : DELIM.isPrefixOf (c :: rest) = true
        · simp only [hp, if_true]
          have hlen : (rest.drop 2).length ≤ rest.length := by
            rw [List.length_drop]; omega
          have hr : rest.length ≤ f := by simpa using h₁
          have hr₂ : rest.length ≤ f₂ := by simpa using h₂
          rw [ih f₂ (rest.drop 2) [] (Nat.le_trans hlen hr) (Nat.le_trans hlen hr₂)]
        · simp only [Bool.not_eq_true] at hp
          simp only [hp, Bool.false_eq_true, if_false]
          have hr : rest.length ≤ f := by simpa using h₁
          have hr₂ : rest.length ≤ f₂ := by simpa using h₂
          rw [ih f₂ rest (c :: acc) hr hr₂]

/-- On a bar-free list the splitter returns a single token. -/
theorem splitBarAux_no_bar :
    ∀ (s : List Char) (fuel : Nat) (acc : List Char), s.length ≤ fuel →
      (∀ c ∈ s, c ≠ '|') → splitBarAux fuel s acc = [acc.reverse ++ s] := by
  intro s
  induction s with
  | nil => intro fuel acc _ _; cases fuel <;> simp [splitBarAux]
  | cons c rest ih =>
    intro fuel acc hf hs
    cases fuel with
    | zero => simp at hf
    | succ f =>
      have hp : DELIM.isPrefixOf (c :: rest) = false := by
        cases rest with
        | nil => simp [DELIM, List.isPrefixOf]
        | cons d rest' =>
          have hd : d ≠ '|' := hs d (by simp)
          simp [DELIM, List.isPrefixOf]
          intro _ h
          exact absurd h.symm hd
      simp only [splitBarAux, hp, Bool.false_eq_true, if_false]
      rw [ih f (c :: acc) (by simpa using hf) (fun x hx => hs x (by simp [hx]))]
      simp

/-- Splitting a string that starts with a bar-free token followed by the
delimiter peels off exactly that token. -/
theorem splitBarAux_delim :
    ∀ (xs : List Char) (fuel : Nat) (ys acc : List Char),
      xs.length + 3 + ys.length ≤ fuel → (∀ c ∈ xs, c ≠ '|') →
      splitBarAux fuel (xs ++ DELIM ++ ys) acc =
        (acc.reverse ++ xs) :: splitBarAux ys.length ys [] := by
  intro xs
  induction xs with
  | nil =>
    intro fuel ys acc hf _
    cases fuel with
    | zero => simp at hf
    | succ f =>
      have hshape : ([] : List Char) ++ DELIM ++ ys = ' ' :: '|' :: ' ' :: ys := by
        simp [DELIM]
      rw [hshape]
      have hp : DELIM.isPrefixOf (' ' :: '|' :: ' ' :: ys) = true := by
        simp [DELIM, List.isPrefixOf]
      simp only [splitBarAux, hp, if_true, List.drop_succ_cons, List.drop_zero]
      rw [splitBarAux_fuel f ys.length ys [] (by simp at hf; omega) (Nat.le_refl _)]
      simp
  | cons x xs ih =>
    intro fuel ys acc hf hx
    cases fuel with
    | zero => simp at hf
    | succ f =>
      have hshape : (x :: xs) ++ DELIM ++ ys = x :: (xs ++ DELIM ++ ys) := by simp
      rw [hshape]
      have hp : DELIM.isPrefixOf (x :: (xs ++ DELIM ++ ys)) = false := by
        cases xs with
        | nil => simp [DELIM, List.isPrefixOf]
        | cons x' xs' =>
          have hx' : x' ≠ '|' := hx x' (by simp)
          simp [DELIM, List.isPrefixOf]
          intro _ h
          exact absurd h.symm hx'
      simp only [splitBarAux, hp, Bool.false_eq_true, if_false]
      rw [ih f ys (x :: acc) (by simp at hf ⊢; omega)
        (fun c hc => hx c (by simp [hc]))]
      simp

/-- Fuel does not matter for `splitSlashAux` as long as it covers the input. -/
theorem splitSlashAux_fuel (fuel₁ : Nat) :
    ∀ (fuel₂ : Nat) (s acc : List Char), s.length ≤ fuel₁ → s.length ≤ fuel₂ →
      splitSlashAux fuel₁ s acc = splitSlashAux fuel₂ s acc := by
  induction fuel₁ with
  | zero =>
    intro fuel₂ s acc h₁ _
    have hs : s = [] := List.eq_nil_of_length_eq_zero (Nat.le_zero.mp h₁)
    subst hs
    cases fuel₂ <;> simp [splitSlashAux]
  | succ f ih =>
    intro fuel₂ s acc h₁ h₂
    cases s with
    | nil => cases fuel₂ <;> simp [splitSlashAux]
    | cons c rest =>
      cases fuel₂ with
      | zero => simp at h₂
      | succ f₂ =>
        simp only [splitSlashAux]
        have hr : rest.length ≤ f := by simpa using h₁
        have hr₂ : rest.length ≤ f₂ := by simpa using h₂
        by_cases hc : c = '/'
        · simp only [hc, if_true, ih f₂ rest [] hr hr₂]
        · simp only [hc, if_false, ih f₂ rest (c :: acc) hr hr₂]

/-- On a slash-free list the slash splitter returns a single token. -/
theorem splitSlashAux_no_slash :
    ∀ (s : List Char) (fuel : Nat) (acc : List Char), s.length ≤ fuel →
      (∀ c ∈ s, c ≠ '/') → splitSlashAux fuel s acc = [acc.reverse ++ s] := by
  intro s
  induction s with
  | nil => intro fuel acc _ _; cases fuel <;> simp [splitSlashAux]
  | cons c rest ih =>
    intro fuel acc hf hs
    cases fuel with
    | zero => simp at hf
    | succ f =>
      have hc : ¬ c = '/' := hs c (by simp)
      simp only [splitSlashAux, hc, if_false]
      rw [ih f (c :: acc) (by simpa using hf) (fun x hx => hs x (by simp [hx]))]
      simp

/-- Peeling a slash-free token followed by `'/'` off the slash splitter. -/
theorem splitSlashAux_delim :
    ∀ (xs : List Char) (fuel : Nat) (ys acc : List Char),
      xs.length + 1 + ys.length ≤ fuel → (∀ c ∈ xs, c ≠ '/') →
      splitSlashAux fuel (xs ++ '/' :: ys) acc =
        (acc.reverse ++ xs) :: splitSlashAux ys.length ys [] := by
  intro xs
  induction xs with
  | nil =>
    intro fuel ys acc hf _
    cases fuel with
    | zero => simp at hf
    | succ f =>
      simp only [List.nil_append, splitSlashAux, if_true]
      rw [splitSlashAux_fuel f ys.length ys [] (by simp at hf; omega) (Nat.le_refl _)]
      simp
  | cons x xs ih =>
    intro fuel ys acc hf hx
    cases fuel with
    | zero => simp at hf
    | succ f =>
      have hc : ¬ x = '/' := hx x (by simp)
      simp only [List.cons_append, splitSlashAux, hc, if_false, List.append_eq]
      rw [ih f ys (x :: acc) (by simp at hf ⊢; omega)
        (fun c hc' => hx c (by simp [hc']))]
      simp

/-- Unfolding `List.asString` back into its string. -/
theorem asString_data (s : String) : s.data.asString = s := rfl

/-- Extracting the extension from a mime type of shape `"video/<ext>"`. -/
theorem lastSlashComp_video (e : String) (he : ∀ c ∈ e.data, c ≠ '/') :
    lastSlashComp ("video/" ++ e) = e := by
  unfold lastSlashComp pySplitSlash
  have hdata : ("video/" ++ e).data = ['v', 'i', 'd', 'e', 'o'] ++ '/' :: e.data := by
    simp [String.data_append]
  rw [hdata]
  rw [splitSlashAux_delim ['v', 'i', 'd', 'e', 'o'] _ e.data []
    (by simp only [List.length_append, List.length_cons, List.length_nil]; omega)
    (by decide)]
  rw [splitSlashAux_no_slash e.data e.data.length [] (Nat.le_refl _) he]
  simp [asString_data]

/-- Splitting an enumerator-shaped label on `" | "`: the first three tokens
come back exactly when they are bar-free (whatever the final size text is). -/
theorem pySplitBar_label (r t e z : String)
    (hr : ∀ c ∈ r.data, c ≠ '|') (ht : ∀ c ∈ t.data, c ≠ '|')
    (he : ∀ c ∈ e.data, c ≠ '|') :
    pySplitBar (r ++ " | " ++ t ++ " | " ++ e ++ " | " ++ z) =
      r :: t :: e :: (splitBarAux z.data.length z.data []).map List.asString := by
  unfold pySplitBar
  have hdata : (r ++ " | " ++ t ++ " | " ++ e ++ " | " ++ z).data
      = r.data ++ DELIM ++ (t.data ++ DELIM ++ (e.data ++ DELIM ++ z.data)) := by
    simp [String.data_append, DELIM]
  rw [hdata]
  rw [splitBarAux_delim r.data _ _ []
    (by simp only [DELIM, List.length_append, List.length_cons, List.length_nil]; omega) hr]
  rw [splitBarAux_delim t.data _ _ []
    (by simp only [DELIM, List.length_append, List.length_cons, List.length_nil]; omega) ht]
  rw [splitBarAux_delim e.data _ _ []
    (by simp only [DELIM, List.length_append, List.length_cons, List.length_nil]; omega) he]
  simp [asString_data]

/-- The type component of a label never contains a bar character. -/
theorem typeLabel_no_bar (s : YTStream) : ∀ c ∈ (typeLabel s).data, c ≠ '|' := by
  unfold typeLabel
  split
  · decide
  · split <;> decide

/-- Unfolding of the label built by `mkChoice`. -/
theorem mkChoice_label (s : YTStream) :
    (mkChoice s).label = resolutionLabel s ++ " | " ++ typeLabel s ++ " | "
      ++ lastSlashComp s.mime_type ++ " | "
      ++ estimate_compressed_size (sizeCmb s) := rfl

/-- Whatever `dropWhile` exposes at the front does not satisfy the predicate. -/
theorem head?_dropWhile_false (p : Char → Bool) (l : List Char) (c : Char)
    (h : (l.dropWhile p).head? = some c) : p c = false := by
  have hd := List.head?_dropWhile_not p l
  rw [h] at hd
  exact hd

/-- Dropping a prefix does not change the last element of a nonempty result. -/
theorem getLast?_dropWhile_ne_nil (p : Char → Bool) :
    ∀ l : List Char, l.dropWhile p ≠ [] → (l.dropWhile p).getLast? = l.getLast? := by
  intro l
  induction l with
  | nil => simp
  | cons a l ih =>
    intro hne
    by_cases hp : p a = true
    · rw [List.dropWhile_cons_of_pos hp] at hne ⊢
      rw [ih hne]
      have hl : l ≠ [] := by
        intro h
        rw [h] at hne
        simp at hne
      cases l with
      | nil => exact absurd rfl hl
      | cons b l' => rw [List.getLast?_cons_cons]
    · rw [List.dropWhile_cons_of_neg hp]

/-- A stripped string does not start with Python whitespace. -/
theorem pyStrip_head_not_ws (s : String) (c : Char)
    (h : (pyStrip s).data.head? = some c) : isPyWS c = false := by
  unfold pyStrip at h
  rw [List.head?_reverse] at h
  have hne : (s.data.dropWhile isPyWS).reverse.dropWhile isPyWS ≠ [] := by
    intro hnil
    rw [hnil] at h
    simp at h
  rw [getLast?_dropWhile_ne_nil _ _ hne, List.getLast?_reverse] at h
  exact head?_dropWhile_false _ _ _ h

/-- A stripped string does not end with Python whitespace. -/
theorem pyStrip_getLast_not_ws (s : String) (c : Char)
    (h : (pyStrip s).data.getLast? = some c) : isPyWS c = false := by
  unfold pyStrip at h
  rw [List.getLast?_reverse] at h
  exact head?_dropWhile_false _ _ _ h

/-- Stripping only removes characters. -/
theorem mem_pyStrip (s : String) (c : Char) (h : c ∈ (pyStrip s).data) :
    c ∈ s.data := by
  unfold pyStrip at h
  rw [List.mem_reverse] at h
  have h1 : c ∈ (s.data.dropWhile isPyWS).reverse :=
    (List.dropWhile_sublist isPyWS).subset h
  rw [List.mem_reverse] at h1
  exact (List.dropWhile_sublist isPyWS).subset h1

/-- Every character of a sanitized title passed the keep filter. -/
theorem mem_sanitizeTitle (title : String) (c : Char)
    (h : c ∈ (sanitizeTitle title).data) : keepSafeChar c = true := by
  unfold sanitizeTitle at h
  exact (List.mem_filter.mp (mem_pyStrip _ _ h)).2

/-- CLAIMS C1 (amended).  Round-trip of an enumerator label through the
Resolver's stream path: for a stream with a non-empty resolution string `r`
and mime type exactly `"video/<e>"` (with `r` and `e` free of the bar and
slash characters the label syntax reserves), whose label is not classified
as an mp3 request, and which is the FIRST upstream stream matching the exact
(resolution, mime) lookup, splitting the label on `" | "` returns `r` as the
first segment and `e` as the third, and re-submitting the label selects that
same stream; the full `/download` handler then returns its downloaded file.
(The original claim fails without the first-match and real-resolution
qualifications: see the counterexample.) -/
theorem c1_round_trip_selects_first_match
    (streams : List YTStream) (s : YTStream) (r e : String)
    (env : Env) (vid p : String) (yt : UpstreamVideo)
    (hres : s.resolution = some r) (hrne : r ≠ "")
    (hmime : s.mime_type = "video/" ++ e)
    (hslash : ∀ c ∈ e.data, c ≠ '/')
    (hbarr : ∀ c ∈ r.data, c ≠ '|')
    (hbare : ∀ c ∈ e.data, c ≠ '|')
    (hfirst : (streams.filter (exactMatch r e)).head? = some s)
    (hv : vid ≠ "")
    (henv : env.resolve (get_full_url vid) = .ok yt)
    (hyt : yt.streams = streams)
    (hnmp3 : isAudioChoice (mkChoice s).label = false)
    (hdl : env.download s none = .ok p) :
    (pySplitBar (mkChoice s).label).headD "" = r
    ∧ (pySplitBar (mkChoice s).label)[2]? = some e
    ∧ streamPath streams (mkChoice s).label = .found s
    ∧ api_download env (some vid) (some (mkChoice s).label) = ⟨.fileAtt p, 200⟩ := by
  have hext : lastSlashComp s.mime_type = e := by
    rw [hmime]
    exact lastSlashComp_video e hslash
  have hresl : resolutionLabel s = r := by
    simp [resolutionLabel, hres, hrne]
  have hlab : (mkChoice s).label
      = r ++ " | " ++ typeLabel s ++ " | " ++ e ++ " | "
        ++ estimate_compressed_size (sizeCmb s) := by
    rw [mkChoice_label, hresl, hext]
  have hsplit : pySplitBar (mkChoice s).label
      = r :: typeLabel s :: e ::
        (splitBarAux (estimate_compressed_size (sizeCmb s)).data.length
          (estimate_compressed_size (sizeCmb s)).data []).map List.asString := by
    rw [hlab]
    exact pySplitBar_label r (typeLabel s) e _ hbarr (typeLabel_no_bar s) hbare
  have hsel : selectStream streams r e = some s := by
    unfold selectStream
    rw [hfirst]
  have hsp : streamPath streams (mkChoice s).label = .found s := by
    unfold streamPath
    rw [hsplit]
    simp [hsel]
  have hne : (mkChoice s).label ≠ "" := by
    rw [hlab]
    intro hempty
    have hdat := congrArg String.data hempty
    simp [String.data_append] at hdat
  have hpv : presentParam (some vid) = true := by simp [presentParam, hv]
  have hpc : presentParam (some (mkChoice s).label) = true := by
    simp [presentParam, hne]
  refine ⟨by rw [hsplit]; rfl, by rw [hsplit]; simp, hsp, ?_⟩
  simp only [api_download, hpv, hpc, Bool.and_self, Bool.not_true,
    Bool.false_eq_true, if_false, Option.getD_some, henv, hnmp3, hyt, hsp, hdl]

/-- CLAIMS C1 counterexample: the enumerator's label for an audio-only stream
(resolution token `"Audio only"`) re-submitted against the same stream set
does not select the stream that produced it — selection fails. -/
theorem c1_round_trip_cex :
    (mkChoice ⟨none, false, false, true, "audio/mp4", some 52428800⟩).label
        = "Audio only | audio only | mp4 | 30.0 MB (est.)"
    ∧ isAudioChoice "Audio only | audio only | mp4 | 30.0 MB (est.)" = false
    ∧ streamPath [⟨none, false, false, true, "audio/mp4", some 52428800⟩]
        "Audio only | audio only | mp4 | 30.0 MB (est.)" = .notAvailable
    ∧ StreamPathResult.notAvailable
        ≠ .found ⟨none, false, false, true, "audio/mp4", some 52428800⟩ := by
  refine ⟨by decide, by decide, by decide, by decide⟩

/-- CLAIMS C1 witness: the amended round-trip at a concrete progressive
720p/mp4 stream of 50 MB. -/
theorem c1_round_trip_witness :
    streamPath [(⟨some "720p", true, true, true, "video/mp4", some 52428800⟩ : YTStream)]
        (mkChoice ⟨some "720p", true, true, true, "video/mp4", some 52428800⟩).label
      = .found ⟨some "720p", true, true, true, "video/mp4", some 52428800⟩
    ∧ api_download
        ⟨fun _ => .ok ⟨"T", [⟨some "720p", true, true, true, "video/mp4", some 52428800⟩]⟩,
          fun _ _ => .ok "downloads/video.mp4", fun _ _ _ => .ok ()⟩
        (some "abc")
        (some (mkChoice ⟨some "720p", true, true, true, "video/mp4", some 52428800⟩).label)
      = ⟨.fileAtt "downloads/video.mp4", 200⟩ := by
  have h := c1_round_trip_selects_first_match
    [⟨some "720p", true, true, true, "video/mp4", some 52428800⟩]
    ⟨some "720p", true, true, true, "video/mp4", some 52428800⟩ "720p" "mp4"
    ⟨fun _ => .ok ⟨"T", [⟨some "720p", true, true, true, "video/mp4", some 52428800⟩]⟩,
      fun _ _ => .ok "downloads/video.mp4", fun _ _ _ => .ok ()⟩
    "abc" "downloads/video.mp4"
    ⟨"T", [⟨some "720p", true, true, true, "video/mp4", some 52428800⟩]⟩
    rfl (by decide) rfl (by decide) (by decide) (by decide) (by decide)
    (by decide) rfl rfl (by decide) rfl
  exact ⟨h.2.2.1, h.2.2.2⟩

/-- Validation failure of `api_download`: a missing or empty parameter
returns the 400 validation response. -/
theorem api_validation (env : Env) (video_id choice : Option String)
    (h : presentParam video_id = false ∨ presentParam choice = false) :
    api_download env video_id choice
      = ⟨.errJson "video_id and choice query parameters are required", 400⟩ := by
  unfold api_download
  rcases h with h | h <;> simp [h]

/-- CLAIMS C2 (amended).  Status mapping of `/download`: missing parameters
(`ValidationError`) give 400; the two selection failures ("No audio stream
available", "Selected quality not available") also give 400 with their
message; every raised exception — upstream resolution, stream download,
transcoding, or the `IndexError` from a malformed choice — gives 500 with
the raw exception message in the JSON body. -/
theorem c2_error_status_mapping (env : Env) (vid ch e : String)
    (yt : UpstreamVideo) (st : YTStream) (temp : String) :
    (api_download env none (some ch)
        = ⟨.errJson "video_id and choice query parameters are required", 400⟩)
    ∧ (api_download env (some vid) none
        = ⟨.errJson "video_id and choice query parameters are required", 400⟩)
    ∧ (api_download env (some "") (some ch)
        = ⟨.errJson "video_id and choice query parameters are required", 400⟩)
    ∧ (api_download env (some vid) (some "")
        = ⟨.errJson "video_id and choice query parameters are required", 400⟩)
    ∧ (vid ≠ "" → ch ≠ "" → env.resolve (get_full_url vid) = .error e →
        api_download env (some vid) (some ch) = ⟨.errJson e, 500⟩)
    ∧ (vid ≠ "" → ch ≠ "" → env.resolve (get_full_url vid) = .ok yt →
        isAudioChoice ch = true → (audioStreams yt.streams).head? = some st →
        env.download st (some "temp.mp4") = .ok temp →
        convert_to_mp3 env temp yt.title (chooseQuality ch) = .error e →
        api_download env (some vid) (some ch) = ⟨.errJson e, 500⟩)
    ∧ (vid ≠ "" → ch ≠ "" → env.resolve (get_full_url vid) = .ok yt →
        isAudioChoice ch = false → streamPath yt.streams ch = .notAvailable →
        api_download env (some vid) (some ch)
          = ⟨.errJson "Selected quality not available", 400⟩)
    ∧ (vid ≠ "" → ch ≠ "" → env.resolve (get_full_url vid) = .ok yt →
        isAudioChoice ch = false → streamPath yt.streams ch = .indexError →
        api_download env (some vid) (some ch)
          = ⟨.errJson "list index out of range", 500⟩)
    ∧ (vid ≠ "" → ch ≠ "" → env.resolve (get_full_url vid) = .ok yt →
        isAudioChoice ch = true → (audioStreams yt.streams).head? = some st →
        env.download st (some "temp.mp4") = .error e →
        api_download env (some vid) (some ch) = ⟨.errJson e, 500⟩) := by
  refine ⟨api_validation env none (some ch) (Or.inl rfl),
    api_validation env (some vid) none (Or.inr rfl),
    api_validation env (some "") (some ch) (Or.inl rfl),
    api_validation env (some vid) (some "") (Or.inr rfl),
    ?_, ?_, ?_, ?_, ?_⟩
  all_goals
    intro hv hc
    have hpv : presentParam (some vid) = true := by simp [presentParam, hv]
    have hpc : presentParam (some ch) = true := by simp [presentParam, hc]
  · intro hres
    simp [api_download, hpv, hpc, hres]
  · intro hres hmp3 hst hdl hcv
    simp [api_download, hpv, hpc, hres, hmp3, hst, hdl, hcv]
  · intro hres hmp3 hsp
    simp [api_download, hpv, hpc, hres, hmp3, hsp]
  · intro hres hmp3 hsp
    simp [api_download, hpv, hpc, hres, hmp3, hsp]
  · intro hres hmp3 hst hdl
    simp [api_download, hpv, hpc, hres, hmp3, hst, hdl]

/-- CLAIMS C2 counterexample: a `SelectionError` ("Selected quality not
available") is returned with status 400, not a 500-class status as the
claim states for non-validation errors. -/
theorem c2_error_status_cex :
    api_download ⟨fun _ => .ok ⟨"T", []⟩, fun _ _ => .error "x", fun _ _ _ => .error "x"⟩
        (some "v") (some "480p | video only | mp4 | ?")
      = ⟨.errJson "Selected quality not available", 400⟩
    ∧ (400 : Nat) / 100 = 4
    ∧ (400 : Nat) / 100 ≠ 5 := by
  refine ⟨by decide, rfl, by decide⟩

/-- CLAIMS C2 witness: the mapping at concrete environments — an upstream
raise gives 500 with the raw message, a selection miss gives 400, a
transcoding raise gives 500 with the raw message. -/
theorem c2_error_status_witness :
    api_download ⟨fun _ => .error "boom", fun _ _ => .error "x", fun _ _ _ => .error "x"⟩
        (some "v") (some "c") = ⟨.errJson "boom", 500⟩
    ∧ api_download ⟨fun _ => .ok ⟨"T", []⟩, fun _ _ => .error "x", fun _ _ _ => .error "x"⟩
        (some "v") (some "a | b | c") = ⟨.errJson "Selected quality not available", 400⟩
    ∧ api_download
        ⟨fun _ => .ok ⟨"T", [⟨none, false, false, true, "audio/mp4", none⟩]⟩,
          fun _ _ => .ok "downloads/temp.mp4", fun _ _ _ => .error "tfail"⟩
        (some "v") (some "mp3 low") = ⟨.errJson "tfail", 500⟩ := by
  refine ⟨?_, ?_, ?_⟩
  · exact (c2_error_status_mapping
      ⟨fun _ => .error "boom", fun _ _ => .error "x", fun _ _ _ => .error "x"⟩
      "v" "c" "boom" ⟨"", []⟩ ⟨none, false, false, false, "", none⟩ "").2.2.2.2.1
      (by decide) (by decide) rfl
  · exact (c2_error_status_mapping
      ⟨fun _ => .ok ⟨"T", []⟩, fun _ _ => .error "x", fun _ _ _ => .error "x"⟩
      "v" "a | b | c" "" ⟨"T", []⟩ ⟨none, false, false, false, "", none⟩ "").2.2.2.2.2.2.1
      (by decide) (by decide) rfl (by decide) (by decide)
  · exact (c2_error_status_mapping
      ⟨fun _ => .ok ⟨"T", [⟨none, false, false, true, "audio/mp4", none⟩]⟩,
        fun _ _ => .ok "downloads/temp.mp4", fun _ _ _ => .error "tfail"⟩
      "v" "mp3 low" "tfail" ⟨"T", [⟨none, false, false, true, "audio/mp4", none⟩]⟩
      ⟨none, false, false, true, "audio/mp4", none⟩ "downloads/temp.mp4").2.2.2.2.2.1
      (by decide) (by decide) rfl (by decide) (by decide) rfl rfl

/-- Follows the claim's words (the spec-side formula, for comparison with the
code): the estimate the claim prescribes for a known size of `c` centi-MB is
`round(S * 0.6, 2)` rendered as `"<x> MB (est.)"`. -/
def claimedEstimate (c : Nat) : String :=
  fmtCents (rheDiv (c * 3) 5) ++ " MB (est.)"

/-- CLAIMS C3 (amended).  Estimated-size formula: the Enumerator first rounds
the known byte size to centi-MB (`rheDiv (n * 100) 1048576`); when that
value is nonzero the reported estimate is exactly the claim's formula
`round(S * 0.6, 2)` followed by `" MB (est.)"`; when the size is unknown,
zero bytes, or rounds to 0.00 MB, the sentinel `"?"` is reported instead. -/
theorem c3_estimate_formula (c : Nat) (s : YTStream) (n : Nat) :
    (c ≠ 0 → estimate_compressed_size (some c) = claimedEstimate c)
    ∧ estimate_compressed_size none = "?"
    ∧ estimate_compressed_size (some 0) = "?"
    ∧ (s.filesize = some n → n ≠ 0 → sizeCmb s = some (rheDiv (n * 100) 1048576))
    ∧ (s.filesize = none → sizeCmb s = none)
    ∧ (mkChoice s).label
        = resolutionLabel s ++ " | " ++ typeLabel s ++ " | " ++ lastSlashComp s.mime_type
          ++ " | " ++ estimate_compressed_size (sizeCmb s) := by
  refine ⟨?_, rfl, rfl, ?_, ?_, rfl⟩
  · intro hc
    simp [estimate_compressed_size, hc, claimedEstimate]
  · intro h hn
    simp [sizeCmb, h, hn]
  · intro h
    simp [sizeCmb, h]

/-- CLAIMS C3 counterexample: a stream of known size 5000 bytes (so its size
in MB is known but rounds to 0.00) is labelled with the sentinel `"?"`,
while the claim's formula prescribes `"0.0 MB (est.)"`. -/
theorem c3_estimate_cex :
    (⟨some "720p", true, true, true, "video/mp4", some 5000⟩ : YTStream).filesize
        = some 5000
    ∧ (mkChoice ⟨some "720p", true, true, true, "video/mp4", some 5000⟩).label
        = "720p | video+audio | mp4 | ?"
    ∧ claimedEstimate (rheDiv (5000 * 100) 1048576) = "0.0 MB (est.)"
    ∧ ("720p | video+audio | mp4 | ?" : String)
        ≠ "720p | video+audio | mp4 | 0.0 MB (est.)" := by
  refine ⟨rfl, by decide, by decide, by decide⟩

/-- CLAIMS C3 witness: the amended formula at the concrete known size 50.00
MB (5000 centi-MB). -/
theorem c3_estimate_witness :
    estimate_compressed_size (some 5000) = claimedEstimate 5000 :=
  (c3_estimate_formula 5000 ⟨none, false, false, false, "", none⟩ 1).1 (by decide)

/-- CLAIMS C4.  For every successfully resolved video, the Enumerator's
output is the per-stream options followed by exactly the three synthetic
audio entries High, Medium, Low, in that order, whatever the stream set. -/
theorem c4_synthetic_suffix (env : Env) (vid : String) (yt : UpstreamVideo)
    (h : env.resolve (get_full_url vid) = .ok yt) :
    get_download_options env vid
        = .ok (yt.streams.map mkChoice ++ [synHigh, synMedium, synLow], yt.title)
    ∧ (yt.streams.map mkChoice ++ [synHigh, synMedium, synLow]).drop
        yt.streams.length = [synHigh, synMedium, synLow]
    ∧ [synHigh.type, synMedium.type, synLow.type]
        = ["mp3_high", "mp3_medium", "mp3_low"]
    ∧ [synHigh.label, synMedium.label, synLow.label]
        = ["Convert to MP3 – High Quality (320kbps)",
            "Convert to MP3 – Medium Quality (192kbps)",
            "Convert to MP3 – Low Quality (128kbps)"] := by
  refine ⟨?_, List.drop_left' (by simp), by decide, by decide⟩
  simp [get_download_options, h, buildChoices]

/-- CLAIMS C4 witness: the suffix at a concrete video with no streams at all
(so no audio stream exists either). -/
theorem c4_synthetic_suffix_witness :
    get_download_options
        ⟨fun _ => .ok ⟨"T", []⟩, fun _ _ => .error "x", fun _ _ _ => .error "x"⟩ "abc"
      = .ok ([synHigh, synMedium, synLow], "T") :=
  (c4_synthetic_suffix
    ⟨fun _ => .ok ⟨"T", []⟩, fun _ _ => .error "x", fun _ _ _ => .error "x"⟩
    "abc" ⟨"T", []⟩ rfl).1

/-- CLAIMS C5.  Stream-path fallback: the Resolver returns the first stream
matching resolution and mime type `"video/<ext>"` when one exists, otherwise
the first stream matching the resolution alone, and it fails — surfacing
"Selected quality not available" with the 400 response in `/download` — if
and only if both lookups miss. -/
theorem c5_fallback_selection (streams : List YTStream) (res ext : String)
    (t : YTStream) :
    ((streams.filter (exactMatch res ext)).head? = some t →
        selectStream streams res ext = some t)
    ∧ ((streams.filter (exactMatch res ext)).head? = none →
        selectStream streams res ext = (streams.filter (resMatch res)).head?)
    ∧ (selectStream streams res ext = none ↔
        (streams.filter (exactMatch res ext)).head? = none
        ∧ (streams.filter (resMatch res)).head? = none)
    ∧ (∀ (env : Env) (vid ch : String) (yt : UpstreamVideo),
        vid ≠ "" → ch ≠ "" →
        env.resolve (get_full_url vid) = .ok yt →
        isAudioChoice ch = false →
        (pySplitBar ch).headD "" = res →
        (pySplitBar ch)[2]? = some ext →
        selectStream yt.streams res ext = none →
        api_download env (some vid) (some ch)
          = ⟨.errJson "Selected quality not available", 400⟩) := by
  refine ⟨?_, ?_, ?_, ?_⟩
  · intro h
    unfold selectStream
    rw [h]
  · intro h
    unfold selectStream
    rw [h]
  · unfold selectStream
    cases hx : (streams.filter (exactMatch res ext)).head? with
    | some s => simp [hx]
    | none => simp [hx]
  · intro env vid ch yt hv hc henv hmp3 hhead hel hsel
    have hhead' : (pySplitBar ch).head?.getD "" = res := by simpa using hhead
    have hsp : streamPath yt.streams ch = .notAvailable := by
      simp [streamPath, hel, hhead', hsel]
    have hpv : presentParam (some vid) = true := by simp [presentParam, hv]
    have hpc : presentParam (some ch) = true := by simp [presentParam, hc]
    simp [api_download, hpv, hpc, henv, hmp3, hsp]

/-- CLAIMS C5 witness: with one 480p webm stream upstream, the exact mp4
lookup misses and the resolution-only fallback selects the stream; with a
non-existent resolution both lookups miss and `/download` answers
"Selected quality not available". -/
theorem c5_fallback_selection_witness :
    selectStream [⟨some "480p", false, true, true, "video/webm", none⟩] "480p" "mp4"
      = some ⟨some "480p", false, true, true, "video/webm", none⟩
    ∧ api_download
        ⟨fun _ => .ok ⟨"T", [⟨some "480p", false, true, true, "video/webm", none⟩]⟩,
          fun _ _ => .error "x", fun _ _ _ => .error "x"⟩
        (some "v") (some "9999p | video only | mp4 | ?")
      = ⟨.errJson "Selected quality not available", 400⟩ := by
  refine ⟨?_, ?_⟩
  · exact ((c5_fallback_selection
      [⟨some "480p", false, true, true, "video/webm", none⟩] "480p" "mp4"
      ⟨some "480p", false, true, true, "video/webm", none⟩).2.1 (by decide)).trans
      (by decide)
  · exact (c5_fallback_selection
      [⟨some "480p", false, true, true, "video/webm", none⟩] "9999p" "mp4"
      ⟨some "480p", false, true, true, "video/webm", none⟩).2.2.2
      ⟨fun _ => .ok ⟨"T", [⟨some "480p", false, true, true, "video/webm", none⟩]⟩,
        fun _ _ => .error "x", fun _ _ _ => .error "x"⟩
      "v" "9999p | video only | mp4 | ?"
      ⟨"T", [⟨some "480p", false, true, true, "video/webm", none⟩]⟩
      (by decide) (by decide) rfl (by decide) (by decide) (by decide) (by decide)

/-- CLAIMS C6.  Choice classification: a choice is an audio request exactly
when its lowercase form contains `"mp3"` as a substring; within an audio
choice the quality is High (320k) when it contains `"high"`, else Medium
(192k) when it contains `"medium"`, else Low (128k); the three spellings
`"MP3 High"`, `"mp3 high"`, `"Mp3 HIGH"` all classify as audio and select
the 320k path (demonstrated end-to-end through `/download` with a
transcoder that only accepts bitrate 320k). -/
theorem c6_audio_classification (ch : String) :
    (isAudioChoice ch = true ↔
        ∃ p s, (pyLower ch).data = p ++ "mp3".data ++ s)
    ∧ (pyIn "high" (pyLower ch) = true →
        chooseQuality ch = "High" ∧ bitrateOf (chooseQuality ch) = some "320k")
    ∧ (pyIn "high" (pyLower ch) = false → pyIn "medium" (pyLower ch) = true →
        chooseQuality ch = "Medium" ∧ bitrateOf (chooseQuality ch) = some "192k")
    ∧ (pyIn "high" (pyLower ch) = false → pyIn "medium" (pyLower ch) = false →
        chooseQuality ch = "Low" ∧ bitrateOf (chooseQuality ch) = some "128k")
    ∧ (isAudioChoice "MP3 High" = true ∧ isAudioChoice "mp3 high" = true
        ∧ isAudioChoice "Mp3 HIGH" = true)
    ∧ (chooseQuality "MP3 High" = "High" ∧ chooseQuality "mp3 high" = "High"
        ∧ chooseQuality "Mp3 HIGH" = "High")
    ∧ api_download
        ⟨fun _ => .ok ⟨"T", [⟨none, false, false, true, "audio/mp4", none⟩]⟩,
          fun _ _ => .ok "downloads/temp.mp4",
          fun _ _ br => if br = "320k" then .ok () else .error "wrong bitrate"⟩
        (some "v") (some "Mp3 HIGH") = ⟨.fileAtt "downloads/T (High).mp3", 200⟩ := by
  refine ⟨?_, ?_, ?_, ?_, by decide, by decide, by decide⟩
  · unfold isAudioChoice pyIn
    exact hasSub_iff "mp3".data (pyLower ch).data
  · intro h
    simp [chooseQuality, h, bitrateOf]
  · intro h1 h2
    simp [chooseQuality, h1, h2, bitrateOf]
  · intro h1 h2
    simp [chooseQuality, h1, h2, bitrateOf]

/-- CLAIMS C6 witness: the 320k path at the concrete mixed-case choice. -/
theorem c6_audio_classification_witness :
    chooseQuality "Mp3 HIGH" = "High"
    ∧ bitrateOf (chooseQuality "Mp3 HIGH") = some "320k" :=
  (c6_audio_classification "Mp3 HIGH").2.1 (by decide)

/-- CLAIMS C7.  When an audio-conversion choice is made for a video with no
audio-only stream upstream, `/download` answers the `SelectionError`
message "No audio stream available" and never a file attachment. -/
theorem c7_no_audio_failure (env : Env) (vid ch : String) (yt : UpstreamVideo)
    (hv : vid ≠ "") (hc : ch ≠ "")
    (henv : env.resolve (get_full_url vid) = .ok yt)
    (hmp3 : isAudioChoice ch = true)
    (haud : audioStreams yt.streams = []) :
    api_download env (some vid) (some ch)
        = ⟨.errJson "No audio stream available", 400⟩
    ∧ ∀ p c', api_download env (some vid) (some ch) ≠ ⟨.fileAtt p, c'⟩ := by
  have hhead : (audioStreams yt.streams).head? = none := by
    rw [haud]
    rfl
  have hpv : presentParam (some vid) = true := by simp [presentParam, hv]
  have hpc : presentParam (some ch) = true := by simp [presentParam, hc]
  have hmain : api_download env (some vid) (some ch)
      = ⟨.errJson "No audio stream available", 400⟩ := by
    simp [api_download, hpv, hpc, henv, hmp3, hhead]
  refine ⟨hmain, ?_⟩
  intro p c' hcontra
  rw [hmain] at hcontra
  simp at hcontra

/-- CLAIMS C7 witness: choice `"mp3 low"` against a video whose only stream
is video-only. -/
theorem c7_no_audio_failure_witness :
    api_download
        ⟨fun _ => .ok ⟨"T", [⟨some "720p", false, true, false, "video/mp4", none⟩]⟩,
          fun _ _ => .error "x", fun _ _ _ => .error "x"⟩
        (some "v") (some "mp3 low")
      = ⟨.errJson "No audio stream available", 400⟩ :=
  (c7_no_audio_failure
    ⟨fun _ => .ok ⟨"T", [⟨some "720p", false, true, false, "video/mp4", none⟩]⟩,
      fun _ _ => .error "x", fun _ _ _ => .error "x"⟩
    "v" "mp3 low" ⟨"T", [⟨some "720p", false, true, false, "video/mp4", none⟩]⟩
    (by decide) (by decide) rfl (by decide) (by decide)).1

/-- Modelled from the spec's words, for comparison with the code: the
sanitization "keeps only alphanumerics, space, hyphen, underscore, and trims
surrounding whitespace". -/
def specSanitizedTitle (title : String) : String :=
  pyStrip ⟨title.data.filter (fun c => c.isAlphanum || c = ' ' || c = '-' || c = '_')⟩

/-- CLAIMS C9.  Every successful audio conversion returns the file
`downloads/<sanitized-title> (<Quality>).mp3`, where the sanitized title
agrees with the spec's description — it keeps only alphanumerics, spaces,
hyphens and underscores (every surviving character passes the keep filter)
and carries no surrounding whitespace. -/
theorem c9_mp3_filename (env : Env) (temp title quality p : String)
    (h : convert_to_mp3 env temp title quality = .ok p) :
    p = "downloads/" ++ sanitizeTitle title ++ " (" ++ quality ++ ").mp3"
    ∧ sanitizeTitle title = specSanitizedTitle title
    ∧ (∀ c ∈ (sanitizeTitle title).data, keepSafeChar c = true)
    ∧ (∀ c, (sanitizeTitle title).data.head? = some c → isPyWS c = false)
    ∧ (∀ c, (sanitizeTitle title).data.getLast? = some c → isPyWS c = false) := by
  refine ⟨?_, rfl, fun c hc => mem_sanitizeTitle title c hc,
    fun c hc => pyStrip_head_not_ws ⟨title.data.filter keepSafeChar⟩ c hc,
    fun c hc => pyStrip_getLast_not_ws ⟨title.data.filter keepSafeChar⟩ c hc⟩
  simp only [convert_to_mp3] at h
  cases hb : bitrateOf quality with
  | none =>
    simp [hb] at h
  | some br =>
    simp only [hb] at h
    cases ht : env.transcode temp
        ("downloads/" ++ sanitizeTitle title ++ " (" ++ quality ++ ").mp3") br with
    | error e =>
      simp [ht] at h
    | ok u =>
      simp only [ht, Except.ok.injEq] at h
      exact h.symm

/-- CLAIMS C9 witness: a concrete title with punctuation and surrounding
whitespace is sanitized and embedded in the returned path. -/
theorem c9_mp3_filename_witness :
    ("downloads/MyVideo Ep1 (Low).mp3" : String)
      = "downloads/" ++ sanitizeTitle " My/Video: Ep1! " ++ " (" ++ "Low" ++ ").mp3" :=
  (c9_mp3_filename
    ⟨fun _ => .error "x", fun _ _ => .error "x", fun _ _ _ => .ok ()⟩
    "downloads/temp.mp4" " My/Video: Ep1! " "Low" "downloads/MyVideo Ep1 (Low).mp3"
    rfl).1

/-- CLAIMS C10.  A non-mp3 choice whose split on `" | "` has fewer than three
segments makes the handler's `choice.split(" | ")[2]` raise `IndexError`,
which the catch-all turns into the 500 JSON error with the raw exception
message, not a `SelectionError` and not a validation 400. -/
theorem c10_malformed_choice (env : Env) (vid ch : String) (yt : UpstreamVideo)
    (hv : vid ≠ "") (hc : ch ≠ "")
    (henv : env.resolve (get_full_url vid) = .ok yt)
    (hmp3 : isAudioChoice ch = false)
    (hlen : (pySplitBar ch).length < 3) :
    streamPath yt.streams ch = .indexError
    ∧ api_download env (some vid) (some ch)
        = ⟨.errJson "list index out of range", 500⟩
    ∧ (500 : Nat) / 100 = 5 := by
  have hnone : (pySplitBar ch)[2]? = none := List.getElem?_eq_none (by omega)
  have hsp : streamPath yt.streams ch = .indexError := by
    simp [streamPath, hnone]
  have hpv : presentParam (some vid) = true := by simp [presentParam, hv]
  have hpc : presentParam (some ch) = true := by simp [presentParam, hc]
  refine ⟨hsp, ?_, rfl⟩
  simp [api_download, hpv, hpc, henv, hmp3, hsp]

/-- CLAIMS C10 witness: the delimiter-free choice `"720p"`. -/
theorem c10_malformed_choice_witness :
    api_download ⟨fun _ => .ok ⟨"T", []⟩, fun _ _ => .error "x", fun _ _ _ => .error "x"⟩
        (some "v") (some "720p")
      = ⟨.errJson "list index out of range", 500⟩ :=
  (c10_malformed_choice
    ⟨fun _ => .ok ⟨"T", []⟩, fun _ _ => .error "x", fun _ _ _ => .error "x"⟩
    "v" "720p" ⟨"T", []⟩ (by decide) (by decide) rfl (by decide) (by decide)).2.1

/-- CLAIMS C8.  The enumeration scenario: a video with a single progressive
720p mp4 stream of 50 MB and no audio-only stream yields exactly the option
labelled `"720p | video+audio | mp4 | 30.0 MB (est.)"` followed by the three
synthetic audio entries. -/
theorem c8_enumeration_scenario :
    get_download_options
        ⟨fun _ => .ok ⟨"title", [⟨some "720p", true, true, true, "video/mp4", some 52428800⟩]⟩,
          fun _ _ => .error "x", fun _ _ _ => .error "x"⟩ "vid"
      = .ok ([⟨"720p | video+audio | mp4 | 30.0 MB (est.)", some "720p", "video+audio",
            some "mp4"⟩, synHigh, synMedium, synLow], "title") := rfl

end Ytdl
